import Mathlib

/-!
Verification development for the proClubsApi match-ingestion pipeline
(`Match_Parser.py`, `main.py`). The Python source is shallowly embedded:
pure record manipulation becomes Lean functions, Python exceptions become
`Except`, the persisted history CSV becomes an explicit `Option (List HistRow)`
value (`none` models `FileNotFoundError` on load), and the nested
`players` payload is modelled by the `PyVal` data-literal type.
-/

set_option maxHeartbeats 1000000

namespace ProClubs

/-- Values of the Python data-literal fragment that `ast.literal_eval` handles
in `Match_Parser._parse_match_row`: strings, integers, and dictionaries with
string keys (the nested `players` payload `clubId -> playerId -> stat -> value`).
Dictionaries are ordered association lists, matching Python dict insertion
order. -/
inductive PyVal where
  | vStr : String → PyVal
  | vInt : Int → PyVal
  | vDict : List (String × PyVal) → PyVal

mutual

/-- Python `repr` of a value in the literal fragment: strings are wrapped in
single quotes (strings are assumed quote/escape-free, as the upstream payload
keys and values are), integers print in decimal, dictionaries print as
`\x7b'k': v, ...\x7d` with Python dict spacing. -/
def pyRepr : PyVal → String
  | .vStr s => "\x27" ++ s ++ "\x27"
  | .vInt n => toString n
  | .vDict d => "\x7b" ++ pyReprItems d ++ "\x7d"

/-- Comma-separated `repr` of dictionary items, Python style. -/
def pyReprItems : List (String × PyVal) → String
  | [] => ""
  | [(k, v)] => "\x27" ++ k ++ "\x27: " ++ pyRepr v
  | (k, v) :: rest => "\x27" ++ k ++ "\x27: " ++ pyRepr v ++ ", " ++ pyReprItems rest

end

/-- Python `str()` as used by `players_str = str(row['players'])`: a string is
returned unchanged; any other value prints as its `repr`. -/
def pyStr : PyVal → String
  | .vStr s => s
  | v => pyRepr v

/-- Python `.items()` on a value: succeeds only on a dictionary (anything else
raises `AttributeError`, modelled as an error). -/
def pyItems : PyVal → Except String (List (String × PyVal))
  | .vDict d => .ok d
  | _ => .error "AttributeError: items"

/-- Python `.get(k, default)` on a value: succeeds only on a dictionary,
returning the first binding of `k` or the default. -/
def pyGet (v : PyVal) (k : String) (default : PyVal) : Except String PyVal :=
  match v with
  | .vDict d => .ok (((d.find? (fun kv => kv.1 == k)).map Prod.snd).getD default)
  | _ => .error "AttributeError: get"

/-- Decimal digits to the natural number they denote. -/
def digitsToNat (cs : List Char) : Nat :=
  cs.foldl (fun a c => a * 10 + (c.toNat - 48)) 0

/-- Drop leading ASCII whitespace. -/
def skipWs : List Char → List Char
  | [] => []
  | c :: cs => if c = ' ' ∨ c = '\n' ∨ c = '\t' ∨ c = '\r' then skipWs cs else c :: cs

/-- Python `str.strip()` over the character list: whitespace removed from both
ends. -/
def stripChars (s : String) : List Char :=
  (skipWs ((skipWs s.data).reverse)).reverse

/-- Python `int(string)`: optional sign followed by decimal digits, with
surrounding whitespace stripped; anything else raises `ValueError`
(in particular a float-looking string like `"2.5"` fails). -/
def parseIntString (s : String) : Option Int :=
  match stripChars s with
  | [] => none
  | c :: rest =>
    if c = '-' then
      if !rest.isEmpty && rest.all Char.isDigit then some (-(digitsToNat rest : Int)) else none
    else if c = '+' then
      if !rest.isEmpty && rest.all Char.isDigit then some ((digitsToNat rest : Int)) else none
    else if (c :: rest).all Char.isDigit then some ((digitsToNat (c :: rest) : Int)) else none

/-- Python `int(x)` on a literal value: integers pass through, strings are
parsed as signed decimal integers, dictionaries raise `TypeError`. -/
def pyInt : PyVal → Except String Int
  | .vInt n => .ok n
  | .vStr s =>
    match parseIntString s with
    | some n => .ok n
    | none => .error "ValueError: invalid literal for int"
  | .vDict _ => .error "TypeError: int"

/-- Python `float(string)` restricted to plain decimals `[sign] digits [. digits]`,
modelled over the rationals (the source only passes the parsed value through
unchanged, so exact rational arithmetic is a faithful stand-in for the float). -/
def parseRatString (s : String) : Option Rat :=
  let cs := stripChars s
  let signed : Bool × List Char :=
    match cs with
    | '-' :: rest => (true, rest)
    | '+' :: rest => (false, rest)
    | _ => (false, cs)
  let body := signed.2
  let intPart := body.takeWhile (fun c => c != '.')
  let rest := body.dropWhile (fun c => c != '.')
  let core : Option Rat :=
    match rest with
    | [] =>
      if !intPart.isEmpty && intPart.all Char.isDigit then
        some ((digitsToNat intPart : Int) : Rat)
      else none
    | '.' :: frac =>
      if intPart.all Char.isDigit && frac.all Char.isDigit &&
          (!intPart.isEmpty || !frac.isEmpty) then
        some (((digitsToNat (intPart ++ frac) : Int) : Rat) / ((10 : Rat) ^ frac.length))
      else none
    | _ => none
  core.map (fun q => if signed.1 then -q else q)

/-- Python `float(x)` on a literal value: integers convert exactly, strings are
parsed as decimals, dictionaries raise `TypeError`. -/
def pyFloat : PyVal → Except String Rat
  | .vInt n => .ok ((n : Rat))
  | .vStr s =>
    match parseRatString s with
    | some q => .ok q
    | none => .error "ValueError: could not convert string to float"
  | .vDict _ => .error "TypeError: float"

/-- Body of a single-quoted string literal: characters up to the closing quote
(the payload strings contain no escapes), returning the body and the remainder. -/
def parseStrBody : List Char → Option (List Char × List Char)
  | [] => none
  | c :: cs =>
    if c = '\x27' then some ([], cs)
    else
      match parseStrBody cs with
      | some (body, rest) => some (c :: body, rest)
      | none => none

/-- A signed decimal integer literal, returning the value and the remainder. -/
def parseIntLit (cs : List Char) : Option (Int × List Char) :=
  match cs with
  | '-' :: rest =>
    let ds := rest.takeWhile Char.isDigit
    if ds.isEmpty then none else some (-(digitsToNat ds : Int), rest.drop ds.length)
  | _ =>
    let ds := cs.takeWhile Char.isDigit
    if ds.isEmpty then none else some ((digitsToNat ds : Int), cs.drop ds.length)

mutual

/-- Recursive-descent reader for the closed data-literal grammar (strings,
integers, dictionaries); the fuel argument bounds nesting depth and each
recursive call is preceded by consuming at least one character, so a fuel of
`length + 1` is always sufficient. -/
def parseVal : Nat → List Char → Option (PyVal × List Char)
  | 0, _ => none
  | fuel + 1, cs =>
    match skipWs cs with
    | [] => none
    | c :: rest =>
      if c = '\x27' then
        match parseStrBody rest with
        | some (body, rest2) => some (.vStr (String.mk body), rest2)
        | none => none
      else if c = '\x7b' then
        parseDictItems fuel rest []
      else
        match parseIntLit (c :: rest) with
        | some (n, r) => some (.vInt n, r)
        | none => none

/-- Items of a dictionary literal after the opening brace, accumulating parsed
pairs in order. -/
def parseDictItems : Nat → List Char → List (String × PyVal) → Option (PyVal × List Char)
  | 0, _, _ => none
  | fuel + 1, cs, acc =>
    match skipWs cs with
    | '\x7d' :: rest => some (.vDict acc, rest)
    | '\x27' :: rest =>
      match parseStrBody rest with
      | some (key, rest2) =>
        match skipWs rest2 with
        | ':' :: rest3 =>
          match parseVal fuel rest3 with
          | some (v, rest4) =>
            match skipWs rest4 with
            | ',' :: rest5 => parseDictItems fuel rest5 (acc ++ [(String.mk key, v)])
            | '\x7d' :: rest5 => some (.vDict (acc ++ [(String.mk key, v)]), rest5)
            | _ => none
          | none => none
        | _ => none
      | none => none
    | _ => none

end

/-- `ast.literal_eval` restricted to the closed data grammar the `players`
column actually uses (strings, integers, nested dictionaries); the whole input
must be consumed up to trailing whitespace, and a malformed literal yields
`none` (the `ValueError`/`SyntaxError` the source catches). -/
def literal_eval (s : String) : Option PyVal :=
  match parseVal (s.length + 1) s.data with
  | some (v, rest) => if (skipWs rest).isEmpty then some v else none
  | none => none

/-- Structured statistics for one player in one match, mirroring the
`PlayerStats` dataclass field for field (`rating` is a rational standing in for
the Python float, which is only ever passed through). -/
structure PlayerStats where
  player_id : String
  player_name : String
  club_id : String
  position : String
  archetype_id : String
  rating : Rat
  goals : Int
  assists : Int
  shots : Int
  passes : Int
  pass_attempts : Int
  tackles : Int
  tackle_attempts : Int
  saves : Int
  seconds_played : Int
  score : Int
  wins : Int
  losses : Int
  redcards : Int
  user_result : Int
deriving DecidableEq

/-- Structured data for a complete match, mirroring the `MatchData` dataclass;
`players_by_club` is an insertion-ordered mapping `club_id -> players`. -/
structure MatchData where
  match_id : String
  timestamp : String
  time_ago : String
  players_by_club : List (String × List PlayerStats)
deriving DecidableEq

/-- One row of the fetched `club_matches.csv` as `_parse_match_row` reads it:
the three scalar columns plus the `players` cell (`none` models a missing
`players` column, whose lookup raises `KeyError`). -/
structure RawRow where
  matchId : String
  timestamp : String
  timeAgo : String
  players : Option PyVal

/-- The per-player extraction performed inside `_parse_match_row`: each field is
a named lookup with an explicit default (`'Unknown'`, `'0'`, or `0`), then a
numeric coercion where the source applies `int`/`float`; a failing lookup or
coercion propagates as the exception the caller catches. -/
def parsePlayerStats (club_id player_id : String) (player_stats : PyVal) :
    Except String PlayerStats := do
  let nameV ← pyGet player_stats "playername" (.vStr "Unknown")
  let posV ← pyGet player_stats "pos" (.vStr "Unknown")
  let archV ← pyGet player_stats "archetypeid" (.vStr "0")
  let rating ← pyFloat (← pyGet player_stats "rating" (.vInt 0))
  let goals ← pyInt (← pyGet player_stats "goals" (.vInt 0))
  let assists ← pyInt (← pyGet player_stats "assists" (.vInt 0))
  let shots ← pyInt (← pyGet player_stats "shots" (.vInt 0))
  let passes ← pyInt (← pyGet player_stats "passesmade" (.vInt 0))
  let pass_attempts ← pyInt (← pyGet player_stats "passattempts" (.vInt 0))
  let tackles ← pyInt (← pyGet player_stats "tacklesmade" (.vInt 0))
  let tackle_attempts ← pyInt (← pyGet player_stats "tackleattempts" (.vInt 0))
  let saves ← pyInt (← pyGet player_stats "saves" (.vInt 0))
  let seconds_played ← pyInt (← pyGet player_stats "secondsPlayed" (.vInt 0))
  let score ← pyInt (← pyGet player_stats "SCORE" (.vInt 0))
  let wins ← pyInt (← pyGet player_stats "wins" (.vInt 0))
  let losses ← pyInt (← pyGet player_stats "losses" (.vInt 0))
  let redcards ← pyInt (← pyGet player_stats "redcards" (.vInt 0))
  let user_result ← pyInt (← pyGet player_stats "userResult" (.vInt 0))
  Except.ok
    { player_id := player_id
      player_name := pyStr nameV
      club_id := club_id
      position := pyStr posV
      archetype_id := pyStr archV
      rating := rating
      goals := goals
      assists := assists
      shots := shots
      passes := passes
      pass_attempts := pass_attempts
      tackles := tackles
      tackle_attempts := tackle_attempts
      saves := saves
      seconds_played := seconds_played
      score := score
      wins := wins
      losses := losses
      redcards := redcards
      user_result := user_result }

/-- Tail of `MatchPlayerParser._parse_match_row` after
`players_str = str(row['players'])` has been computed: decode the string with
`ast.literal_eval` and build the per-club, per-player rows in payload order;
every failure (malformed literal, non-dictionary nesting, bad numeric
coercion) is an error the caller catches. -/
def parseMatchRowFromStr (mid ts ago players_str : String) : Except String MatchData := do
  let players_data ← match literal_eval players_str with
    | some v => Except.ok v
    | none => Except.error "ValueError: Could not parse players data"
  let clubItems ← pyItems players_data
  let players_by_club ← clubItems.mapM (fun ckv => do
    let clubPlayers ← pyItems ckv.2
    let plist ← clubPlayers.mapM (fun pkv => parsePlayerStats ckv.1 pkv.1 pkv.2)
    Except.ok (ckv.1, plist))
  Except.ok
    { match_id := mid
      timestamp := ts
      time_ago := ago
      players_by_club := players_by_club }

/-- Embedding of `MatchPlayerParser._parse_match_row`: look up the `players`
cell (`KeyError` if the column is missing), stringify it with `str`, then
decode and build via `parseMatchRowFromStr`. -/
def parse_match_row (row : RawRow) : Except String MatchData := do
  let playersField ← match row.players with
    | some v => Except.ok v
    | none => Except.error "KeyError: players"
  parseMatchRowFromStr row.matchId row.timestamp row.timeAgo (pyStr playersField)

/-- Embedding of `MatchPlayerParser.parse_csv`: iterate the CSV rows, append
each successfully parsed match to the existing `self.matches` list (which is
never cleared), and skip any row whose parse raises. -/
def parse_csv (ms : List MatchData) (rows : List RawRow) : List MatchData :=
  match rows with
  | [] => ms
  | r :: rs =>
    match parse_match_row r with
    | .ok m => parse_csv (ms ++ [m]) rs
    | .error _ => parse_csv ms rs

/-- One row of the persisted `most_recent_matches.csv`, exactly the columns
`update_most_recent_matches` writes. -/
structure HistRow where
  matchId : String
  timestamp : String
  timeAgo : String
  club_id : String
  player_id : String
  player_name : String
  position : String
  rating : Rat
  goals : Int
  assists : Int
  shots : Int
  passes : Int
  pass_attempts : Int
  tackles : Int
  tackle_attempts : Int
  saves : Int
  seconds_played : Int
  score : Int
  redcards : Int
deriving DecidableEq

/-- The history row `update_most_recent_matches` builds for one player of one
match. -/
def playerHistRow (m : MatchData) (p : PlayerStats) : HistRow :=
  { matchId := m.match_id
    timestamp := m.timestamp
    timeAgo := m.time_ago
    club_id := p.club_id
    player_id := p.player_id
    player_name := p.player_name
    position := p.position
    rating := p.rating
    goals := p.goals
    assists := p.assists
    shots := p.shots
    passes := p.passes
    pass_attempts := p.pass_attempts
    tackles := p.tackles
    tackle_attempts := p.tackle_attempts
    saves := p.saves
    seconds_played := p.seconds_played
    score := p.score
    redcards := p.redcards }

/-- The flattened `current_matches_data` list built at the top of
`update_most_recent_matches`: every player of every club of every match in
`self.matches`, in iteration order. -/
def current_matches_data (ms : List MatchData) : List HistRow :=
  ms.flatMap (fun m => m.players_by_club.flatMap (fun ckv => ckv.2.map (playerHistRow m)))

/-- The dedup identity used by `drop_duplicates(subset=['matchId', 'player_id'])`. -/
def hkey (r : HistRow) : String × String :=
  (r.matchId, r.player_id)

/-- `DataFrame.drop_duplicates(subset=['matchId', 'player_id'], keep='last')`:
keep a row iff no later row shares its key, preserving the order of kept rows. -/
def drop_duplicates_keep_last : List HistRow → List HistRow
  | [] => []
  | r :: rs =>
    if rs.any (fun x => hkey x == hkey r) then drop_duplicates_keep_last rs
    else r :: drop_duplicates_keep_last rs

/-- Embedding of `MatchPlayerParser.update_most_recent_matches` as a function
from the loaded store (`none` models a missing `most_recent_matches.csv`) to
the store it writes back: no-op on an empty match list; with an existing store
it concatenates existing rows with the current rows and drops duplicate
`(matchId, player_id)` keys keeping the last; with no existing store it writes
the current rows as-is. -/
def update_most_recent_matches (ms : List MatchData) (store : Option (List HistRow)) :
    Option (List HistRow) :=
  if ms.isEmpty then store
  else
    match store with
    | some existing => some (drop_duplicates_keep_last (existing ++ current_matches_data ms))
    | none => some (current_matches_data ms)

/-- Embedding of `MatchPlayerParser.check_for_new_matches`, returning the pair
(return value, `new_matches_detected` flag after the call); `store = none`
models `load_most_recent_matches` hitting `FileNotFoundError`. An empty match
list returns `False` without touching the flag; an absent store is a first run
and returns `True`; otherwise the Python set difference of match ids is tested
for non-emptiness, which holds iff some current id is missing from the store. -/
def check_for_new_matches (ms : List MatchData) (store : Option (List HistRow))
    (oldFlag : Bool) : Bool × Bool :=
  if ms.isEmpty then (false, oldFlag)
  else
    match store with
    | none => (true, true)
    | some df =>
      let existing := df.map (fun r => r.matchId)
      if (ms.map (fun m => m.match_id)).any (fun c => !(existing.contains c)) then
        (true, true)
      else (false, false)

/-- The ordered subset of new matches in fetch order, as §4.3 of the spec
describes the Change Detector output. This definition follows the spec wording
(for comparison with the code); the code itself computes only an unordered id
set and a boolean. -/
def specNewMatches (ms : List MatchData) (store : Option (List HistRow)) :
    List MatchData :=
  match store with
  | none => ms
  | some df => ms.filter (fun m => !((df.map (fun r => r.matchId)).contains m.match_id))

/-- Membership in the internal `new_match_ids` Python set computed by
`check_for_new_matches` (`current_match_ids - existing_match_ids`); Python set
iteration order is unspecified, so only membership is modelled. -/
def newIdMember (ms : List MatchData) (df : List HistRow) (x : String) : Bool :=
  (ms.map (fun m => m.match_id)).contains x
    && !((df.map (fun r => r.matchId)).contains x)

/-- The player dictionary written per player by
`export_most_recent_match_to_json` (the exported field subset). -/
structure JsonPlayer where
  player_id : String
  player_name : String
  position : String
  rating : Rat
  goals : Int
  assists : Int
  shots : Int
  passes : Int
  pass_attempts : Int
  tackles : Int
  tackle_attempts : Int
  saves : Int
  seconds_played : Int
  score : Int
  redcards : Int
deriving DecidableEq

/-- Projection of a parsed player onto the exported JSON fields. -/
def toJsonPlayer (p : PlayerStats) : JsonPlayer :=
  { player_id := p.player_id
    player_name := p.player_name
    position := p.position
    rating := p.rating
    goals := p.goals
    assists := p.assists
    shots := p.shots
    passes := p.passes
    pass_attempts := p.pass_attempts
    tackles := p.tackles
    tackle_attempts := p.tackle_attempts
    saves := p.saves
    seconds_played := p.seconds_played
    score := p.score
    redcards := p.redcards }

/-- The single match object `export_most_recent_match_to_json` writes
(`newest_match.json` wraps it in a one-element list). -/
structure ExportedMatch where
  match_id : String
  timestamp : String
  time_ago : String
  clubs : List (String × List JsonPlayer)
deriving DecidableEq

/-- The JSON shape of one match as exported. -/
def exportMatch (m : MatchData) : ExportedMatch :=
  { match_id := m.match_id
    timestamp := m.timestamp
    time_ago := m.time_ago
    clubs := m.players_by_club.map (fun ckv => (ckv.1, ckv.2.map toJsonPlayer)) }

/-- Embedding of `MatchPlayerParser.export_most_recent_match_to_json`: exports
`self.matches[0]` ("the most recent match (first in the list)"), or nothing
when the match list is empty. -/
def export_most_recent_match_to_json (ms : List MatchData) : Option ExportedMatch :=
  ms.head?.map exportMatch

/-- The `MostRecentMatch` dataclass. -/
structure MostRecentMatch where
  match_id : String
  timestamp : String
  time_ago : String
  players : List PlayerStats
  is_new : Bool
deriving DecidableEq

/-- Embedding of `MatchPlayerParser.get_most_recent_match`: builds a
`MostRecentMatch` from `self.matches[0]` with all clubs' players flattened and
`is_new` taken from the `new_matches_detected` flag. -/
def get_most_recent_match (ms : List MatchData) (newFlag : Bool) :
    Option MostRecentMatch :=
  ms.head?.map (fun m0 =>
    { match_id := m0.match_id
      timestamp := m0.timestamp
      time_ago := m0.time_ago
      players := m0.players_by_club.flatMap (fun ckv => ckv.2)
      is_new := newFlag })

/-- ASCII `str.title()`: a letter is uppercased when it starts a word (previous
character not a letter) and lowercased otherwise; non-letters pass through. -/
def titleAux : Bool → List Char → List Char
  | _, [] => []
  | prevAlpha, c :: cs =>
    if c.isAlpha then (if prevAlpha then c.toLower else c.toUpper) :: titleAux true cs
    else c :: titleAux false cs

/-- The stat label formatting in `parse_stats`:
`stat.replace('_', ' ').title()`. -/
def statTitle (s : String) : String :=
  String.mk (titleAux false (s.data.map (fun c => if c = '_' then ' ' else c)))

/-- The f-string payload `"PlayerName Stat Value"` built in `parse_stats` for
one (player, stat) pair. -/
def fact_payload (p : JsonPlayer) (stat : String) (v : Int) : String :=
  p.player_name ++ " " ++ statTitle stat ++ " " ++ toString v

/-- The fixed tracked-stat list `stats_to_check` in `PlayerStatsParser.parse_stats`. -/
def stats_to_check : List String :=
  ["goals", "assists", "passes", "tackles", "redcards"]

/-- Python `player[stat]` on an exported player dictionary, for the integer
stat fields present in `newest_match.json` (`none` models the `KeyError` a
name outside the exported columns would raise). -/
def jsonStat (p : JsonPlayer) (s : String) : Option Int :=
  if s = "goals" then some p.goals
  else if s = "assists" then some p.assists
  else if s = "shots" then some p.shots
  else if s = "passes" then some p.passes
  else if s = "pass_attempts" then some p.pass_attempts
  else if s = "tackles" then some p.tackles
  else if s = "tackle_attempts" then some p.tackle_attempts
  else if s = "saves" then some p.saves
  else if s = "seconds_played" then some p.seconds_played
  else if s = "score" then some p.score
  else if s = "redcards" then some p.redcards
  else none

/-- The club id hard-coded in `parse_stats` (and `main`). -/
def tracked_club_id : String := "3439844"

/-- The nested payload loop of `parse_stats`: for each player in order, for
each stat in the given tracked list in order, append one payload string; a
stat name missing from the player dictionary raises `KeyError`. -/
def parse_stats_payloads (players : List JsonPlayer) (stats : List String) :
    Except String (List String) :=
  match players with
  | [] => .ok []
  | p :: ps => do
    let mine ← stats.mapM (fun s =>
      match jsonStat p s with
      | some v => Except.ok (fact_payload p s v)
      | none => Except.error "KeyError: stat")
    let rest ← parse_stats_payloads ps stats
    Except.ok (mine ++ rest)

/-- Embedding of `PlayerStatsParser.parse_stats`: read the one-element match
list from `newest_match.json`, take `data[0]['clubs'][club_id]` for the
tracked club, and build the payloads over the fixed `stats_to_check` list. -/
def parse_stats (data : List ExportedMatch) : Except String (List String) := do
  let first ← match data.head? with
    | some m => Except.ok m
    | none => Except.error "IndexError: data"
  let players ← match first.clubs.find? (fun ckv => ckv.1 == tracked_club_id) with
    | some ckv => Except.ok ckv.2
    | none => Except.error "KeyError: clubs"
  parse_stats_payloads players stats_to_check

/-- A primitive file operation: write a complete row list to a path. The
commit step of `update_most_recent_matches` is `DataFrame.to_csv`, a direct
in-place write of the merged rows to the history path. -/
inductive FsOp where
  | write (path : String) (rows : List HistRow)
deriving DecidableEq

/-- The sequence of file operations the commit step of
`update_most_recent_matches` performs: a single in-place `to_csv` write of the
merged rows to the history path — no temporary file and no rename. -/
def commit_trace (path : String) (rows : List HistRow) : List FsOp :=
  [FsOp.write path rows]

/-- Effect of one completed file operation on the content of the target path. -/
def applyOp (target : String) (content : Option (List HistRow)) : FsOp → Option (List HistRow)
  | .write p rows => if p == target then some rows else content

/-- Content of the target path after running a whole operation trace. -/
def runTrace (target : String) (init : Option (List HistRow)) (t : List FsOp) :
    Option (List HistRow) :=
  t.foldl (applyOp target) init

/-- Content of the target path if the process is interrupted during operation
`k` of the trace after only the first `j` rows of that write have reached the
disk (operations before `k` completed; a write cut short leaves a prefix). -/
def interruptedState (target : String) (init : Option (List HistRow)) (t : List FsOp)
    (k j : Nat) : Option (List HistRow) :=
  let before := runTrace target init (t.take k)
  match t.get? k with
  | some (.write p rows) => if p == target then some (rows.take j) else before
  | none => before

/-- §4.2 atomicity as the spec states it: however the commit trace is
interrupted, the on-disk history file holds either the complete old state or
the complete new state. -/
def AtomicCommit (target : String) (t : List FsOp) : Prop :=
  ∀ (init : Option (List HistRow)) (k j : Nat),
    interruptedState target init t k j = init ∨
    interruptedState target init t k j = runTrace target init t

/-- The slice of one `main` dispatch cycle that decides which match the
delivered facts derive from: parse the fetched rows into the accumulated match
list, run change detection, and on a positive answer export
`self.matches[0]` to `newest_match.json` (the file `parse_stats` then reads). -/
def dispatch_exported (ms0 : List MatchData) (rows : List RawRow)
    (store : Option (List HistRow)) (flag0 : Bool) : Option ExportedMatch :=
  let ms := parse_csv ms0 rows
  if (check_for_new_matches ms store flag0).1 then export_most_recent_match_to_json ms
  else none

/-- The successfully parsed rows of a batch, in file order. -/
def rowsParsed (rows : List RawRow) : List MatchData :=
  rows.filterMap (fun r => (parse_match_row r).toOption)

/-- Whether some row of `l` carries the dedup key `k`. -/
def hasKey (l : List HistRow) (k : String × String) : Bool :=
  l.any (fun x => hkey x == k)

/-- The last row of `l` carrying dedup key `k` — the "last write". -/
def lastWithKey (l : List HistRow) (k : String × String) : Option HistRow :=
  (l.filter (fun x => hkey x == k)).getLast?

/-! ### Concrete fixtures used by witnesses and counterexamples -/

/-- A history row with the given match and player ids (all other columns
zeroed or empty). -/
def histRowOf (mid pid : String) : HistRow :=
  ⟨mid, "", "", "", pid, "", "", 0, 0, 0, 0, 0, 0, 0, 0, 0, 0, 0, 0⟩

/-- A minimal parsed match with the given id and no player payload. -/
def mkMatch (mid : String) : MatchData :=
  ⟨mid, "t", "ago", []⟩

/-- A fetched CSV row with the given match id and an empty (but well-formed)
`players` payload; it parses to `mkMatch mid`. -/
def mkRawRow (mid : String) : RawRow :=
  ⟨mid, "t", "ago", some (.vDict [])⟩

/-- A fetched row whose `players` cell holds a malformed literal. -/
def rowBadLit : RawRow :=
  ⟨"X1", "t", "ago", some (.vStr "\x7b")⟩

/-- A fetched row whose `players` column is missing. -/
def rowNoPlayers : RawRow :=
  ⟨"X2", "t", "ago", none⟩

/-- A fetched row whose `goals` field is present but non-numeric. -/
def rowNonNumeric : RawRow :=
  ⟨"X3", "t", "ago", some (.vDict [("10", .vDict [("p1", .vDict [("goals", .vStr "abc")])])])⟩

/-- A one-player stat-line fixture for club `"10"`. -/
def playerFix : PlayerStats :=
  ⟨"p1", "Alice", "10", "ST", "0", 0, 2, 1, 0, 0, 0, 0, 0, 0, 0, 0, 0, 0, 0, 0⟩

/-- A one-club, one-player match fixture. -/
def matchFix : MatchData :=
  ⟨"M", "t", "ago", [("10", [playerFix])]⟩

/-- An exported player fixture: `Alice` with 2 goals and 1 assist. -/
def aliceJson : JsonPlayer :=
  ⟨"p1", "Alice", "ST", 0, 2, 1, 0, 0, 0, 0, 0, 0, 0, 0, 0⟩

/-! ### Lemmas about parsing and the dedup merge -/

theorem parse_csv_eq_append (ms : List MatchData) (rows : List RawRow) :
    parse_csv ms rows = ms ++ rowsParsed rows := by
  induction rows generalizing ms with
  | nil => simp [parse_csv, rowsParsed]
  | cons r rs ih =>
    cases h : parse_match_row r with
    | ok v =>
      simp [parse_csv, h, rowsParsed, List.filterMap_cons, Except.toOption, ih]
    | error e =>
      simp [parse_csv, h, rowsParsed, List.filterMap_cons, Except.toOption, ih]

theorem hasKey_cons (r : HistRow) (rs : List HistRow) (k : String × String) :
    hasKey (r :: rs) k = ((hkey r == k) || hasKey rs k) := by
  simp [hasKey]

theorem mem_of_mem_ddl : ∀ {l : List HistRow} {x : HistRow},
    x ∈ drop_duplicates_keep_last l → x ∈ l := by
  intro l
  induction l with
  | nil => intro x h; exact absurd h (List.not_mem_nil x)
  | cons r rs ih =>
    intro x h
    cases hc : rs.any (fun y => hkey y == hkey r) with
    | true =>
      rw [drop_duplicates_keep_last, if_pos (by rw [hc])] at h
      exact List.mem_cons_of_mem r (ih h)
    | false =>
      rw [drop_duplicates_keep_last, if_neg (by rw [hc]; exact Bool.false_ne_true)] at h
      rcases List.mem_cons.1 h with h1 | h2
      · exact h1 ▸ List.mem_cons_self r rs
      · exact List.mem_cons_of_mem r (ih h2)

theorem hasKey_ddl (l : List HistRow) (k : String × String) :
    hasKey (drop_duplicates_keep_last l) k = hasKey l k := by
  induction l with
  | nil => rfl
  | cons r rs ih =>
    cases hc : rs.any (fun y => hkey y == hkey r) with
    | false =>
      rw [drop_duplicates_keep_last, if_neg (by rw [hc]; exact Bool.false_ne_true),
        hasKey_cons, hasKey_cons, ih]
    | true =>
      rw [drop_duplicates_keep_last, if_pos (by rw [hc]), ih, hasKey_cons]
      cases hk : (hkey r == k) with
      | false => simp
      | true =>
        have hkeq : hkey r = k := eq_of_beq hk
        have hrs : hasKey rs k = true := by
          rcases List.any_eq_true.1 hc with ⟨y, hy, hky⟩
          exact List.any_eq_true.2 ⟨y, hy, by rw [eq_of_beq hky, hkeq]; exact beq_self_eq_true k⟩
        simp [hrs]

theorem ddl_pairwise (l : List HistRow) :
    (drop_duplicates_keep_last l).Pairwise (fun a b => hkey a ≠ hkey b) := by
  induction l with
  | nil => simp [drop_duplicates_keep_last]
  | cons r rs ih =>
    cases hc : rs.any (fun y => hkey y == hkey r) with
    | true =>
      rw [drop_duplicates_keep_last, if_pos (by rw [hc])]
      exact ih
    | false =>
      rw [drop_duplicates_keep_last, if_neg (by rw [hc]; exact Bool.false_ne_true)]
      refine List.Pairwise.cons ?_ ih
      intro b hb hbeq
      have hbrs : b ∈ rs := mem_of_mem_ddl hb
      have : rs.any (fun y => hkey y == hkey r) = true :=
        List.any_eq_true.2 ⟨b, hbrs, beq_iff_eq.2 hbeq.symm⟩
      rw [hc] at this
      cases this

theorem find?_ddl (l : List HistRow) (k : String × String) :
    (drop_duplicates_keep_last l).find? (fun x => hkey x == k) = lastWithKey l k := by
  induction l with
  | nil => rfl
  | cons r rs ih =>
    cases hc : rs.any (fun y => hkey y == hkey r) with
    | true =>
      rw [drop_duplicates_keep_last, if_pos (by rw [hc]), ih]
      unfold lastWithKey
      cases hk : (hkey r == k) with
      | false => rw [List.filter_cons_of_neg (by rw [hk]; exact Bool.false_ne_true)]
      | true =>
        rw [List.filter_cons_of_pos (by rw [hk])]
        have hkeq : hkey r = k := eq_of_beq hk
        have hne : rs.filter (fun x => hkey x == k) ≠ [] := by
          rcases List.any_eq_true.1 hc with ⟨y, hy, hky⟩
          intro hnil
          have hmem : y ∈ rs.filter (fun x => hkey x == k) :=
            List.mem_filter.2 ⟨hy, by rw [eq_of_beq hky, hkeq]; exact beq_self_eq_true k⟩
          rw [hnil] at hmem
          cases hmem
        cases hfil : rs.filter (fun x => hkey x == k) with
        | nil => exact absurd hfil hne
        | cons a as => rw [List.getLast?_cons_cons]
    | false =>
      rw [drop_duplicates_keep_last, if_neg (by rw [hc]; exact Bool.false_ne_true)]
      cases hk : (hkey r == k) with
      | false =>
        simp only [List.find?, hk, ih]
        unfold lastWithKey
        rw [List.filter_cons_of_neg (by rw [hk]; exact Bool.false_ne_true)]
      | true =>
        simp only [List.find?, hk]
        have hkeq : hkey r = k := eq_of_beq hk
        have hfil : rs.filter (fun x => hkey x == k) = [] := by
          rw [List.filter_eq_nil_iff]
          intro a ha hak
          have : rs.any (fun y => hkey y == hkey r) = true :=
            List.any_eq_true.2 ⟨a, ha, by rw [eq_of_beq hak, hkeq]; exact beq_self_eq_true k⟩
          rw [hc] at this
          cases this
        unfold lastWithKey
        rw [List.filter_cons_of_pos (by rw [hk]), hfil]
        rfl

theorem ddl_ddl_append (xs ys : List HistRow) :
    drop_duplicates_keep_last (drop_duplicates_keep_last xs ++ ys)
      = drop_duplicates_keep_last (xs ++ ys) := by
  induction xs with
  | nil => rfl
  | cons r rs ih =>
    cases hc : rs.any (fun y => hkey y == hkey r) with
    | true =>
      have e1 : drop_duplicates_keep_last (r :: rs) = drop_duplicates_keep_last rs := by
        rw [drop_duplicates_keep_last, if_pos (by rw [hc])]
      have e2 : drop_duplicates_keep_last (r :: (rs ++ ys))
          = drop_duplicates_keep_last (rs ++ ys) := by
        rw [drop_duplicates_keep_last, if_pos (by rw [List.any_append, hc]; rfl)]
      rw [e1, ih, List.cons_append, e2]
    | false =>
      have e1 : drop_duplicates_keep_last (r :: rs) = r :: drop_duplicates_keep_last rs := by
        rw [drop_duplicates_keep_last, if_neg (by rw [hc]; exact Bool.false_ne_true)]
      rw [e1, List.cons_append, List.cons_append]
      have hkeq : (drop_duplicates_keep_last rs ++ ys).any (fun y => hkey y == hkey r)
          = (rs ++ ys).any (fun y => hkey y == hkey r) := by
        have h1 := hasKey_ddl rs (hkey r)
        simp only [hasKey] at h1
        rw [List.any_append, List.any_append, h1]
      cases hc2 : (rs ++ ys).any (fun y => hkey y == hkey r) with
      | true =>
        have e2 : drop_duplicates_keep_last (r :: (drop_duplicates_keep_last rs ++ ys))
            = drop_duplicates_keep_last (drop_duplicates_keep_last rs ++ ys) := by
          rw [drop_duplicates_keep_last, if_pos (by rw [hkeq, hc2])]
        have e3 : drop_duplicates_keep_last (r :: (rs ++ ys))
            = drop_duplicates_keep_last (rs ++ ys) := by
          rw [drop_duplicates_keep_last, if_pos (by rw [hc2])]
        rw [e2, e3, ih]
      | false =>
        have e2 : drop_duplicates_keep_last (r :: (drop_duplicates_keep_last rs ++ ys))
            = r :: drop_duplicates_keep_last (drop_duplicates_keep_last rs ++ ys) := by
          rw [drop_duplicates_keep_last, if_neg (by rw [hkeq, hc2]; exact Bool.false_ne_true)]
        have e3 : drop_duplicates_keep_last (r :: (rs ++ ys))
            = r :: drop_duplicates_keep_last (rs ++ ys) := by
          rw [drop_duplicates_keep_last, if_neg (by rw [hc2]; exact Bool.false_ne_true)]
        rw [e2, e3, ih]

theorem ddl_append_of_subsumed (l1 l2 : List HistRow)
    (h : ∀ a ∈ l1, hasKey l2 (hkey a) = true) :
    drop_duplicates_keep_last (l1 ++ l2) = drop_duplicates_keep_last l2 := by
  induction l1 with
  | nil => rfl
  | cons r rs ih =>
    have hr : hasKey l2 (hkey r) = true := h r (List.mem_cons_self r rs)
    have hcond : (rs ++ l2).any (fun y => hkey y == hkey r) = true := by
      rw [List.any_append]
      have : l2.any (fun y => hkey y == hkey r) = true := hr
      rw [this, Bool.or_true]
    rw [List.cons_append, drop_duplicates_keep_last, if_pos (by rw [hcond])]
    exact ih (fun a ha => h a (List.mem_cons_of_mem r ha))

theorem ddl_append_self (ys : List HistRow) :
    drop_duplicates_keep_last (ys ++ ys) = drop_duplicates_keep_last ys :=
  ddl_append_of_subsumed ys ys
    (fun a ha => List.any_eq_true.2 ⟨a, ha, beq_self_eq_true (hkey a)⟩)

theorem ddl_append_append_self (xs ys : List HistRow) :
    drop_duplicates_keep_last (xs ++ (ys ++ ys)) = drop_duplicates_keep_last (xs ++ ys) := by
  induction xs with
  | nil => exact ddl_append_self ys
  | cons r rs ih =>
    have hkeq : (rs ++ (ys ++ ys)).any (fun y => hkey y == hkey r)
        = (rs ++ ys).any (fun y => hkey y == hkey r) := by
      rw [List.any_append, List.any_append, List.any_append, Bool.or_self]
    rw [List.cons_append, List.cons_append]
    cases hc : (rs ++ ys).any (fun y => hkey y == hkey r) with
    | true =>
      have e1 : drop_duplicates_keep_last (r :: (rs ++ (ys ++ ys)))
          = drop_duplicates_keep_last (rs ++ (ys ++ ys)) := by
        rw [drop_duplicates_keep_last, if_pos (by rw [hkeq, hc])]
      have e2 : drop_duplicates_keep_last (r :: (rs ++ ys))
          = drop_duplicates_keep_last (rs ++ ys) := by
        rw [drop_duplicates_keep_last, if_pos (by rw [hc])]
      rw [e1, e2, ih]
    | false =>
      have e1 : drop_duplicates_keep_last (r :: (rs ++ (ys ++ ys)))
          = r :: drop_duplicates_keep_last (rs ++ (ys ++ ys)) := by
        rw [drop_duplicates_keep_last, if_neg (by rw [hkeq, hc]; exact Bool.false_ne_true)]
      have e2 : drop_duplicates_keep_last (r :: (rs ++ ys))
          = r :: drop_duplicates_keep_last (rs ++ ys) := by
        rw [drop_duplicates_keep_last, if_neg (by rw [hc]; exact Bool.false_ne_true)]
      rw [e1, e2, ih]

/-! ### Claim theorems -/

/-- C2: `parse_csv` appends the newly parsed rows (in file order) to the
parser's existing `self.matches` list and never clears it; a repeated call on
the same parser appends the same rows again, accumulating duplicates; and the
head of the list — what `get_most_recent_match` and
`export_most_recent_match_to_json` use as "the most recent match" — remains
the head of the pre-existing list. -/
theorem C2_parse_csv_accumulates (ms : List MatchData) (rows : List RawRow)
    (flag : Bool) (h : ms ≠ []) :
    parse_csv ms rows = ms ++ rowsParsed rows
    ∧ parse_csv (parse_csv ms rows) rows = ms ++ rowsParsed rows ++ rowsParsed rows
    ∧ (parse_csv ms rows).head? = ms.head?
    ∧ (get_most_recent_match (parse_csv ms rows) flag).map (fun m => m.match_id)
        = ms.head?.map (fun m => m.match_id)
    ∧ (export_most_recent_match_to_json (parse_csv ms rows)).map (fun m => m.match_id)
        = ms.head?.map (fun m => m.match_id) := by
  obtain ⟨m0, ms2, rfl⟩ : ∃ m0 ms2, ms = m0 :: ms2 := by
    cases ms with
    | nil => exact absurd rfl h
    | cons a l => exact ⟨a, l, rfl⟩
  have c1 := parse_csv_eq_append (m0 :: ms2) rows
  refine ⟨c1, ?_, ?_, ?_, ?_⟩
  · rw [c1, parse_csv_eq_append]
  · rw [c1]; rfl
  · rw [get_most_recent_match, c1]; rfl
  · rw [export_most_recent_match_to_json, c1]; rfl

/-- Witness for C2 at a concrete pre-populated parser state. -/
theorem C2_parse_csv_accumulates_witness :
    ([mkMatch "A"] : List MatchData) ≠ []
    ∧ (parse_csv [mkMatch "A"] [mkRawRow "B"] = [mkMatch "A"] ++ rowsParsed [mkRawRow "B"]
      ∧ parse_csv (parse_csv [mkMatch "A"] [mkRawRow "B"]) [mkRawRow "B"]
          = [mkMatch "A"] ++ rowsParsed [mkRawRow "B"] ++ rowsParsed [mkRawRow "B"]
      ∧ (parse_csv [mkMatch "A"] [mkRawRow "B"]).head? = [mkMatch "A"].head?
      ∧ (get_most_recent_match (parse_csv [mkMatch "A"] [mkRawRow "B"]) true).map
          (fun m => m.match_id) = [mkMatch "A"].head?.map (fun m => m.match_id)
      ∧ (export_most_recent_match_to_json (parse_csv [mkMatch "A"] [mkRawRow "B"])).map
          (fun m => m.match_id) = [mkMatch "A"].head?.map (fun m => m.match_id)) :=
  ⟨by decide, C2_parse_csv_accumulates [mkMatch "A"] [mkRawRow "B"] true (by decide)⟩

/-- C9: a per-record parse failure causes only that record to be skipped:
removing the failing record from anywhere in the batch leaves the result
unchanged, and the result is exactly the previous list followed by the
successfully parsed records of the batch. -/
theorem C9_record_failure_skips_only_record (ms : List MatchData)
    (pre post : List RawRow) (r : RawRow) (msg : String)
    (h : parse_match_row r = .error msg) :
    parse_csv ms (pre ++ r :: post) = parse_csv ms (pre ++ post)
    ∧ parse_csv ms (pre ++ r :: post) = ms ++ (rowsParsed pre ++ rowsParsed post) := by
  have key : rowsParsed (pre ++ r :: post) = rowsParsed pre ++ rowsParsed post := by
    rw [rowsParsed, List.filterMap_append, List.filterMap_cons, h]
    rw [rowsParsed, rowsParsed]
    rfl
  have key2 : rowsParsed (pre ++ post) = rowsParsed pre ++ rowsParsed post := by
    rw [rowsParsed, List.filterMap_append]
    rfl
  constructor
  · rw [parse_csv_eq_append, parse_csv_eq_append, key, key2]
  · rw [parse_csv_eq_append, key]

/-- Witness for C9: in a five-row batch the malformed-literal row, the row
with no `players` column, and the non-numeric-field row are each skipped and
the two good sibling records still parse. -/
theorem C9_record_failure_skips_only_record_witness :
    parse_match_row rowBadLit = .error "ValueError: Could not parse players data"
    ∧ (parse_match_row rowNoPlayers).toOption = none
    ∧ (parse_match_row rowNonNumeric).toOption = none
    ∧ parse_csv [] [mkRawRow "G1", rowBadLit, rowNoPlayers, rowNonNumeric, mkRawRow "G2"]
        = [mkMatch "G1", mkMatch "G2"]
    ∧ (parse_csv [] ([mkRawRow "G1"] ++ rowBadLit :: [rowNoPlayers, rowNonNumeric, mkRawRow "G2"])
        = parse_csv [] ([mkRawRow "G1"] ++ [rowNoPlayers, rowNonNumeric, mkRawRow "G2"])
      ∧ parse_csv [] ([mkRawRow "G1"] ++ rowBadLit :: [rowNoPlayers, rowNonNumeric, mkRawRow "G2"])
        = [] ++ (rowsParsed [mkRawRow "G1"]
            ++ rowsParsed [rowNoPlayers, rowNonNumeric, mkRawRow "G2"])) :=
  ⟨by rfl, by decide, by decide, by decide,
    C9_record_failure_skips_only_record [] [mkRawRow "G1"]
      [rowNoPlayers, rowNonNumeric, mkRawRow "G2"] rowBadLit
      "ValueError: Could not parse players data" (by rfl)⟩

/-- C4: an absent persisted history file is treated as a first run, not an
error: with `load` returning the absent signal and a nonempty fetched batch,
`check_for_new_matches` returns `True` (setting the flag), and the whole batch
counts as new. -/
theorem C4_absent_store_first_run (ms : List MatchData) (f : Bool) (h : ms ≠ []) :
    check_for_new_matches ms none f = (true, true)
    ∧ specNewMatches ms none = ms := by
  have hne : ms.isEmpty = false := by
    cases ms with
    | nil => exact absurd rfl h
    | cons a l => rfl
  constructor
  · rw [check_for_new_matches, hne]; rfl
  · rfl

/-- Witness for C4 on a concrete one-match batch. -/
theorem C4_absent_store_first_run_witness :
    ([mkMatch "A"] : List MatchData) ≠ []
    ∧ (check_for_new_matches [mkMatch "A"] none false = (true, true)
      ∧ specNewMatches [mkMatch "A"] none = [mkMatch "A"]) :=
  ⟨by decide, C4_absent_store_first_run [mkMatch "A"] false (by decide)⟩

/-- C7: the History Store merge is idempotent over an existing persisted
state: merging the rows derived from the same match list twice yields exactly
the same persisted state as merging them once. -/
theorem C7_merge_idempotent (e : List HistRow) (ms : List MatchData) :
    update_most_recent_matches ms (update_most_recent_matches ms (some e))
      = update_most_recent_matches ms (some e) := by
  cases hms : ms.isEmpty with
  | true => simp [update_most_recent_matches, hms]
  | false =>
    have h1 : update_most_recent_matches ms (some e)
        = some (drop_duplicates_keep_last (e ++ current_matches_data ms)) := by
      simp [update_most_recent_matches, hms]
    have h2 : update_most_recent_matches ms
        (some (drop_duplicates_keep_last (e ++ current_matches_data ms)))
        = some (drop_duplicates_keep_last
            (drop_duplicates_keep_last (e ++ current_matches_data ms)
              ++ current_matches_data ms)) := by
      simp [update_most_recent_matches, hms]
    rw [h1, h2, ddl_ddl_append, List.append_assoc, ddl_append_append_self]

/-- If the right-hand list carries key `k`, the last row with key `k` in the
concatenation comes from the right-hand list. -/
theorem lastWithKey_append_right (e n : List HistRow) (k : String × String)
    (h : hasKey n k = true) :
    lastWithKey (e ++ n) k = lastWithKey n k := by
  unfold lastWithKey
  rw [List.filter_append]
  apply List.getLast?_append_of_ne_nil
  rcases List.any_eq_true.1 h with ⟨y, hy, hky⟩
  intro hnil
  have hmem : y ∈ n.filter (fun x => hkey x == k) := List.mem_filter.2 ⟨hy, hky⟩
  rw [hnil] at hmem
  cases hmem

/-- C6: the pair `(matchId, player_id)` is the identity of a history entry: for
a merge into an existing persisted state, the result contains no duplicate
keys, and for every key carried by the new rows the surviving entry is the
last new row with that key — the new entry replaces any existing one
("last write wins"). -/
theorem C6_merge_last_write_wins (e : List HistRow) (ms : List MatchData)
    (res : List HistRow) (hms : ms ≠ [])
    (hres : update_most_recent_matches ms (some e) = some res) :
    res.Pairwise (fun a b => hkey a ≠ hkey b)
    ∧ ∀ k : String × String, hasKey (current_matches_data ms) k = true →
        res.find? (fun x => hkey x == k) = lastWithKey (current_matches_data ms) k := by
  have hne : ms.isEmpty = false := by
    cases ms with
    | nil => exact absurd rfl hms
    | cons a l => rfl
  have hres2 : res = drop_duplicates_keep_last (e ++ current_matches_data ms) := by
    rw [update_most_recent_matches, if_neg (by rw [hne]; exact Bool.false_ne_true)] at hres
    exact (Option.some.injEq _ _ ▸ hres).symm
  subst hres2
  refine ⟨ddl_pairwise _, ?_⟩
  intro k hk
  rw [find?_ddl, lastWithKey_append_right e _ k hk]

/-- Witness for C6: an existing entry for `(M, p1)` is replaced by the freshly
derived row for the same key, and the merged store has unique keys. -/
theorem C6_merge_last_write_wins_witness :
    ([matchFix] : List MatchData) ≠ []
    ∧ update_most_recent_matches [matchFix] (some [histRowOf "M" "p1"])
        = some [playerHistRow matchFix playerFix]
    ∧ (([playerHistRow matchFix playerFix] : List HistRow).Pairwise
          (fun a b => hkey a ≠ hkey b)
      ∧ ∀ k : String × String, hasKey (current_matches_data [matchFix]) k = true →
          ([playerHistRow matchFix playerFix] : List HistRow).find? (fun x => hkey x == k)
            = lastWithKey (current_matches_data [matchFix]) k) :=
  ⟨by decide, by decide,
    C6_merge_last_write_wins [histRowOf "M" "p1"] [matchFix]
      [playerHistRow matchFix playerFix] (by decide) (by decide)⟩

/-- `List.contains` agrees with membership for strings. -/
theorem contains_eq_true_iff_mem (l : List String) (a : String) :
    l.contains a = true ↔ a ∈ l :=
  ⟨List.mem_of_elem_eq_true, List.elem_eq_true_of_mem⟩

/-- C3 counterexample: the claim says the detector's output is the boolean
together with the ordered subset of new matches in fetch order; but on two
batches that differ only in fetch order — and hence have different ordered new
subsets — the code's entire observable output (return value and flag) is
identical, so that output determines no ordered subset. -/
theorem C3_counterexample :
    check_for_new_matches [mkMatch "C", mkMatch "D"] (some [histRowOf "Z" "p"]) false
      = check_for_new_matches [mkMatch "D", mkMatch "C"] (some [histRowOf "Z" "p"]) false
    ∧ specNewMatches [mkMatch "C", mkMatch "D"] (some [histRowOf "Z" "p"])
      ≠ specNewMatches [mkMatch "D", mkMatch "C"] (some [histRowOf "Z" "p"]) := by
  decide

/-- C3 amended: the Change Detector classifies by match identity only — with a
present store and nonempty batch it answers `true` iff some fetched match id is
absent from the known id set (content is never consulted) — but its output is
only that boolean (mirrored in the flag); the ordered new subset is not part of
the output. On the batch `A, B, C` against known `A, B` the internal new-id
set holds exactly `C`. -/
theorem C3_new_iff_id_not_known (ms : List MatchData) (df : List HistRow) (f : Bool)
    (h : ms ≠ []) :
    ((check_for_new_matches ms (some df) f).1 = true
      ↔ ∃ m ∈ ms, m.match_id ∉ df.map (fun r => r.matchId))
    ∧ check_for_new_matches [mkMatch "A", mkMatch "B", mkMatch "C"]
        (some [histRowOf "A" "p", histRowOf "B" "p"]) f = (true, true)
    ∧ (∀ x : String, newIdMember [mkMatch "A", mkMatch "B", mkMatch "C"]
        [histRowOf "A" "p", histRowOf "B" "p"] x = true ↔ x = "C") := by
  have hne : ms.isEmpty = false := by
    cases ms with
    | nil => exact absurd rfl h
    | cons a l => rfl
  refine ⟨?_, by cases f <;> decide, ?_⟩
  · rw [check_for_new_matches, hne]
    simp only [Bool.false_eq_true, if_false]
    cases hany : (ms.map (fun m => m.match_id)).any
        (fun c => !((df.map (fun r => r.matchId)).contains c)) with
    | true =>
      rw [if_pos rfl]
      constructor
      · intro _
        rcases List.any_eq_true.1 hany with ⟨c, hc, hbc⟩
        rcases List.mem_map.1 hc with ⟨m, hm, rfl⟩
        refine ⟨m, hm, ?_⟩
        intro hmem
        rw [(contains_eq_true_iff_mem _ _).2 hmem] at hbc
        exact absurd hbc (by decide)
      · intro _; rfl
    | false =>
      rw [if_neg Bool.false_ne_true]
      constructor
      · intro hfalse; exact absurd hfalse Bool.false_ne_true
      · rintro ⟨m, hm, hnot⟩
        have hcon : ((df.map (fun r => r.matchId)).contains m.match_id) = false := by
          cases hcon2 : ((df.map (fun r => r.matchId)).contains m.match_id) with
          | false => rfl
          | true => exact absurd ((contains_eq_true_iff_mem _ _).1 hcon2) hnot
        have hany2 : (ms.map (fun m => m.match_id)).any
            (fun c => !((df.map (fun r => r.matchId)).contains c)) = true :=
          List.any_eq_true.2 ⟨m.match_id, List.mem_map.2 ⟨m, hm, rfl⟩, by rw [hcon]; rfl⟩
        rw [hany] at hany2
        cases hany2
  · intro x
    constructor
    · intro hx
      rw [newIdMember, Bool.and_eq_true] at hx
      obtain ⟨hin, hout⟩ := hx
      have hin2 : x ∈ ["A", "B", "C"] := (contains_eq_true_iff_mem _ _).1 hin
      have hout2 : x ∉ (["A", "B"] : List String) := by
        intro hmem
        have hout4 : (!(["A", "B"] : List String).contains x) = true := hout
        rw [(contains_eq_true_iff_mem _ _).2 hmem] at hout4
        exact absurd hout4 (by decide)
      rcases List.mem_cons.1 hin2 with h1 | h1
      · exact absurd (h1 ▸ List.mem_cons_self _ _) hout2
      rcases List.mem_cons.1 h1 with h2 | h2
      · exact absurd (h2 ▸ List.mem_cons_of_mem _ (List.mem_cons_self _ _)) hout2
      rcases List.mem_cons.1 h2 with h3 | h3
      · exact h3
      · cases h3
    · rintro rfl; decide

/-- Witness for C3 (amended) on a concrete nonempty batch with a present
store. -/
theorem C3_new_iff_id_not_known_witness :
    ([mkMatch "A"] : List MatchData) ≠ []
    ∧ (((check_for_new_matches [mkMatch "A"] (some [histRowOf "Z" "p"]) false).1 = true
        ↔ ∃ m ∈ [mkMatch "A"], m.match_id ∉ [histRowOf "Z" "p"].map (fun r => r.matchId))
      ∧ check_for_new_matches [mkMatch "A", mkMatch "B", mkMatch "C"]
          (some [histRowOf "A" "p", histRowOf "B" "p"]) false = (true, true)
      ∧ (∀ x : String, newIdMember [mkMatch "A", mkMatch "B", mkMatch "C"]
          [histRowOf "A" "p", histRowOf "B" "p"] x = true ↔ x = "C")) :=
  ⟨by decide, C3_new_iff_id_not_known [mkMatch "A"] [histRowOf "Z" "p"] false (by decide)⟩

/-- C1 counterexample: with known history id `A` and fetched batch `[A, C]`
(fetch order, most recent first), change detection reports new matches and the
ordered new subset is exactly `[C]`; yet the match exported to
`newest_match.json` — the one whose player stats are extracted and sent — is
`A`, which is not a member of the new subset. -/
theorem C1_counterexample :
    (check_for_new_matches (parse_csv [] [mkRawRow "A", mkRawRow "C"])
        (some [histRowOf "A" "p"]) false).1 = true
    ∧ dispatch_exported [] [mkRawRow "A", mkRawRow "C"] (some [histRowOf "A" "p"]) false
        = some (exportMatch (mkMatch "A"))
    ∧ (specNewMatches (parse_csv [] [mkRawRow "A", mkRawRow "C"])
        (some [histRowOf "A" "p"])).map (fun m => m.match_id) = ["C"]
    ∧ (exportMatch (mkMatch "A")).match_id ∉
        (specNewMatches (parse_csv [] [mkRawRow "A", mkRawRow "C"])
          (some [histRowOf "A" "p"])).map (fun m => m.match_id) := by
  decide

/-- C1 amended: whenever change detection reports new matches, the match
exported for fact extraction is always `self.matches[0]` — the head of the
accumulated match list, which (when the parser already held matches) is still
the head of the first parse — regardless of whether that head belongs to the
new subset. -/
theorem C1_export_is_list_head (ms0 : List MatchData) (rows : List RawRow)
    (store : Option (List HistRow)) (f : Bool)
    (h : (check_for_new_matches (parse_csv ms0 rows) store f).1 = true) :
    dispatch_exported ms0 rows store f = (parse_csv ms0 rows).head?.map exportMatch
    ∧ (ms0 ≠ [] → (parse_csv ms0 rows).head? = ms0.head?) := by
  constructor
  · rw [dispatch_exported, if_pos h]
    rfl
  · intro hne
    rw [parse_csv_eq_append]
    cases ms0 with
    | nil => exact absurd rfl hne
    | cons a l => rfl

/-- Witness for C1 (amended): a parser holding a stale match `Z` fetches a new
match `A`; detection fires and the exported match is the stale head `Z`. -/
theorem C1_export_is_list_head_witness :
    (check_for_new_matches (parse_csv [mkMatch "Z"] [mkRawRow "A"]) none false).1 = true
    ∧ (dispatch_exported [mkMatch "Z"] [mkRawRow "A"] none false
        = (parse_csv [mkMatch "Z"] [mkRawRow "A"]).head?.map exportMatch
      ∧ (([mkMatch "Z"] : List MatchData) ≠ []
          → (parse_csv [mkMatch "Z"] [mkRawRow "A"]).head? = [mkMatch "Z"].head?)) :=
  ⟨by decide, C1_export_is_list_head [mkMatch "Z"] [mkRawRow "A"] none false (by decide)⟩

/-- C5 counterexample: the commit step of `update_most_recent_matches` is a
single direct `to_csv` write to the history path; interrupting that write
after one of two rows leaves the file holding neither the complete old state
nor the complete new state, so the commit is not atomic. -/
theorem C5_counterexample :
    ¬ AtomicCommit "most_recent_matches.csv"
      (commit_trace "most_recent_matches.csv" [histRowOf "M" "p1", histRowOf "M" "p2"]) := by
  intro hA
  rcases hA (some [histRowOf "OLD" "p"]) 0 1 with h | h
  · exact absurd h (by decide)
  · exact absurd h (by decide)

/-- C5 amended: the commit writes the merged rows directly to the history file
in place (no temporary file, no swap); an interruption therefore leaves the
file holding either the old state or some prefix of the new rows — possibly a
strict, partially-written prefix — rather than being guaranteed all-old or
all-new. -/
theorem C5_direct_write_interrupted_states (init : Option (List HistRow))
    (path : String) (rows : List HistRow) (k j : Nat) :
    interruptedState path init (commit_trace path rows) k j = init
    ∨ ∃ i, interruptedState path init (commit_trace path rows) k j = some (rows.take i) := by
  cases k with
  | zero =>
    right
    refine ⟨j, ?_⟩
    simp [interruptedState, commit_trace, runTrace]
  | succ k2 =>
    right
    refine ⟨rows.length, ?_⟩
    simp [interruptedState, commit_trace, runTrace, applyOp, List.take_length]

/-- Applying the fixed `stats_to_check` loop to one player always succeeds and
yields that player's five payloads in stat order. -/
theorem parse_stats_player_payloads (p : JsonPlayer) :
    (stats_to_check.mapM (fun s =>
      match jsonStat p s with
      | some v => Except.ok (fact_payload p s v)
      | none => Except.error "KeyError: stat") : Except String (List String))
    = .ok [fact_payload p "goals" p.goals, fact_payload p "assists" p.assists,
        fact_payload p "passes" p.passes, fact_payload p "tackles" p.tackles,
        fact_payload p "redcards" p.redcards] := rfl

/-- C8: the Fact Extractor produces one payload string per (player, stat) pair
in player-then-stat order, each of the form `<playerName> <StatLabel> <value>`
(`fact_payload`); Alice with goals 2 and assists 1 under tracked stats
`[goals, assists]` yields exactly `["Alice Goals 2", "Alice Assists 1"]`, and
over the code's fixed tracked list every batch of players flattens to five
ordered payloads per player. -/
theorem C8_fact_extractor_order_and_format :
    parse_stats_payloads [aliceJson] ["goals", "assists"]
      = .ok ["Alice Goals 2", "Alice Assists 1"]
    ∧ ∀ players : List JsonPlayer,
        parse_stats_payloads players stats_to_check
          = .ok (players.flatMap (fun p =>
              [fact_payload p "goals" p.goals, fact_payload p "assists" p.assists,
                fact_payload p "passes" p.passes, fact_payload p "tackles" p.tackles,
                fact_payload p "redcards" p.redcards])) := by
  refine ⟨by rfl, ?_⟩
  intro players
  induction players with
  | nil => rfl
  | cons p ps ih =>
    rw [parse_stats_payloads, parse_stats_player_payloads, ih]
    rfl

/-- C10: a raw record whose `players` field is a literal-encoded string
normalizes to exactly the same `Match` as the record carrying the equivalent
structured object: the source funnels both through `str` followed by
`ast.literal_eval`, so any string decoding to the same dictionary yields an
identical parse result (same match fields and per-club, per-player stats). -/
theorem C10_literal_string_eq_structured (mid ts ago s : String)
    (d : List (String × PyVal))
    (h : literal_eval s = literal_eval (pyRepr (.vDict d))) :
    parse_match_row ⟨mid, ts, ago, some (.vStr s)⟩
      = parse_match_row ⟨mid, ts, ago, some (.vDict d)⟩ := by
  show parseMatchRowFromStr mid ts ago (pyStr (.vStr s))
      = parseMatchRowFromStr mid ts ago (pyStr (.vDict d))
  unfold parseMatchRowFromStr
  rw [show pyStr (PyVal.vStr s) = s from rfl,
    show pyStr (PyVal.vDict d) = pyRepr (PyVal.vDict d) from rfl, h]

/-- Witness for C10: a whitespace-padded literal string and the structured
nested dictionary it denotes parse to the same (successful) `Match`. -/
theorem C10_literal_string_eq_structured_witness :
    literal_eval " \x7b\x27\x310\x27: \x7b\x27p1\x27: \x7b\x7d\x7d\x7d"
      = literal_eval (pyRepr (.vDict [("10", .vDict [("p1", .vDict [])])]))
    ∧ parse_match_row ⟨"m", "t", "a",
        some (.vStr " \x7b\x27\x310\x27: \x7b\x27p1\x27: \x7b\x7d\x7d\x7d")⟩
      = parse_match_row ⟨"m", "t", "a",
        some (.vDict [("10", .vDict [("p1", .vDict [])])])⟩ :=
  ⟨by rfl,
    C10_literal_string_eq_structured "m" "t" "a"
      " \x7b\x27\x310\x27: \x7b\x27p1\x27: \x7b\x7d\x7d\x7d"
      [("10", .vDict [("p1", .vDict [])])] (by rfl)⟩

end ProClubs



